import Mathlib


set_option maxRecDepth 100000

/-!
Verification development for the ExamSys SAQ feedback extractor.

The repository contains two extraction pipelines:
* `examsys_gui.py` — the GUI tool (URL resolver `absolutize`, mark
  normalizer `parse_mark_to_decimal`, orchestrator `extract_feedback`,
  log-based summary `parse_summary_from_log`);
* `exam_sys_saq_extraction.py` — a standalone CLI script (`main`).

This file gives a shallow embedding of both pipelines.  Browser
interaction is modelled by a `World`: the report page is a list of
anchor hrefs, and question pages are an association list from the URL
the browser dereferences to the list of student answer blocks rendered
there.  A missing entry, or an entry with an empty block list, models a
page whose readiness marker `div.student-answer-block.marked` never
appears within the 10 s timeout (Playwright `wait_for_selector` raises
in both cases, which the code treats identically).

Python string primitives (`strip`, `lstrip`, `startswith`, `in`,
`float`, `str` of a float) are modelled over `List Char`.  Whitespace is
the ASCII whitespace set; `float()` is modelled for plain decimal
literals with optional sign (exponent forms, `inf`/`nan` and underscore
separators are not modelled — no mark text exercised by the claims uses
them), and `str` of a float is modelled exactly for values whose decimal
expansion terminates within 17 digits, which covers every value the
verified claims produce.  Arithmetic is exact, on numerator/denominator
pairs; IEEE rounding is not modelled (all values in the claims are
exactly representable).
-/

/-- ASCII whitespace, modelling the characters stripped by Python
`str.strip()` and matched by `\s` (the source data never contains
non-ASCII whitespace). -/
def isPyWs (c : Char) : Bool :=
  c = ' ' || c = '\t' || c = '\n' || c = '\r' || c = '\x0b' || c = '\x0c'

/-- Right-strip of whitespace on a character list, structural form. -/
def rstripWsL : List Char → List Char
  | [] => []
  | c :: t =>
    match rstripWsL t with
    | [] => if isPyWs c then [] else [c]
    | r => c :: r

/-- Both-ends whitespace strip on a character list. -/
def stripWsL (l : List Char) : List Char :=
  rstripWsL (l.dropWhile isPyWs)

/-- Python `s.strip()`. -/
def pyStrip (s : String) : String :=
  ⟨stripWsL s.data⟩

/-- Python `s.startswith(pre)`. -/
def pyStartswith (s pre : String) : Bool :=
  pre.data.isPrefixOf s.data

/-- Python `needle in hay` (substring test). -/
def pyIn (needle hay : String) : Bool :=
  hay.data.tails.any (fun t => needle.data.isPrefixOf t)

/-- Python `s.lstrip(chars)`: remove leading characters drawn from the
set `chars`. -/
def pyLstripChars (s chars : String) : String :=
  ⟨s.data.dropWhile (fun c => chars.data.contains c)⟩

/-- Python `s.rstrip(chars)`: remove trailing characters drawn from the
set `chars`. -/
def pyRstripChars (s chars : String) : String :=
  ⟨(s.data.reverse.dropWhile (fun c => chars.data.contains c)).reverse⟩

/-- `EXAMSYS_BASE` from both source files. -/
def EXAMSYS_BASE : String := "https://examsys.nottingham.ac.uk"

/-- `absolutize` from `examsys_gui.py` (the URL Resolver): turns a
possibly-relative href into an absolute URL against the ExamSys base. -/
def absolutize (href : String) (base : String := EXAMSYS_BASE) : String :=
  if href = "" then ""
  else
    let h := pyStrip href
    if pyStartswith h "http" then h
    else if pyStartswith h "/" then pyRstripChars base "/" ++ h
    else if pyStartswith h "../" then
      pyRstripChars base "/" ++ "/reports/" ++ pyLstripChars h "../"
    else if pyStartswith h "reports/" then pyRstripChars base "/" ++ "/" ++ h
    else if pyStartswith h "textbox_marking" then
      pyRstripChars base "/" ++ "/reports/" ++ h
    else pyRstripChars base "/" ++ "/" ++ pyLstripChars h "/"

/-- Numeric value of a digit string (the value `int`/`float` give a
`\d+` match). -/
def digitsToNat (l : List Char) : Nat :=
  l.foldl (fun a c => a * 10 + (c.toNat - 48)) 0

/-- An exact numeric value `num / den` (den positive), modelling the
Python float values flowing through `parse_mark_to_decimal`. -/
structure PyNum where
  num : Int
  den : Nat
deriving DecidableEq

/-- Python `float(s)` for plain decimal literals: optional sign, digits
with an optional fractional part (`"2"`, `"1.5"`, `".5"`, `"1."`,
`"-3"`).  `none` models `float` raising `ValueError`. -/
def pyFloat (s : String) : Option PyNum :=
  let (neg, rest) :=
    match s.data with
    | '+' :: t => (false, t)
    | '-' :: t => (true, t)
    | t => (false, t)
  let d1 := rest.takeWhile Char.isDigit
  let sgn : Int := if neg then -1 else 1
  match rest.dropWhile Char.isDigit with
  | [] =>
    if d1 = [] then none
    else some ⟨sgn * (digitsToNat d1 : Int), 1⟩
  | '.' :: r2 =>
    let d2 := r2.takeWhile Char.isDigit
    if (r2.dropWhile Char.isDigit).isEmpty = false then none
    else if d1 = [] ∧ d2 = [] then none
    else
      some ⟨sgn * ((digitsToNat d1 : Int) * (10 ^ d2.length : Nat) + (digitsToNat d2 : Int)),
            10 ^ d2.length⟩
  | _ => none

/-- Decimal digits of the proper fraction `rem / den`, with fuel; exact
for expansions that terminate within the fuel. -/
def fracDigits : Nat → Nat → Nat → String
  | 0, _, _ => ""
  | fuel + 1, rem, den =>
    let d := rem * 10 / den
    let rest := rem * 10 % den
    let c := Char.ofNat (48 + d)
    if rest = 0 then String.singleton c
    else String.singleton c ++ fracDigits fuel rest den

/-- Python `str(x)` for a non-negative float value `n / den`. -/
def pyStrFloatNN (n den : Nat) : String :=
  let ip := n / den
  let rem := n % den
  if rem = 0 then toString ip ++ ".0"
  else toString ip ++ "." ++ fracDigits 17 rem den

/-- Python `str(x)` for a float value (exact for terminating decimal
expansions, which covers every value produced in the verified claims). -/
def pyStrFloat (q : PyNum) : String :=
  if q.num < 0 then "-" ++ pyStrFloatNN (-q.num).toNat q.den
  else pyStrFloatNN q.num.toNat q.den

/-- Full match of the regex `\d+\s*/\s*\d+` (the `a/b` fraction form in
`parse_mark_to_decimal`), returning the numerator and denominator digit
runs.  Greedy `takeWhile` is exact here because digits, whitespace and
`/` are disjoint character classes. -/
def fracMatch (l : List Char) : Option (List Char × List Char) :=
  let n := l.takeWhile Char.isDigit
  if n = [] then none
  else
    match (l.dropWhile Char.isDigit).dropWhile isPyWs with
    | '/' :: r3 =>
      let r4 := r3.dropWhile isPyWs
      let d := r4.takeWhile Char.isDigit
      if d = [] then none
      else if r4.dropWhile Char.isDigit = [] then some (n, d)
      else none
    | _ => none

/-- Full match of the regex `\d+(\.\d+)?` (the plain-numeric form in
`parse_mark_to_decimal`). -/
def plainNum (l : List Char) : Bool :=
  let d1 := l.takeWhile Char.isDigit
  if d1 = [] then false
  else
    match l.dropWhile Char.isDigit with
    | [] => true
    | '.' :: r2 =>
      !(r2.takeWhile Char.isDigit).isEmpty && (r2.dropWhile Char.isDigit).isEmpty
    | _ => false

/-- The `"½" in s` branch of `parse_mark_to_decimal`, for a stripped
nonempty `s` containing the half glyph. -/
def halfBranch (s : String) : String :=
  if s = "½" then "0.5"
  else
    let base := pyStrip ⟨s.data.filter (fun c => c ≠ '½')⟩
    if base = "" then "0.5"
    else
      match pyFloat ⟨base.data.filter (fun c => c ≠ ' ')⟩ with
      | some v => pyStrFloat ⟨v.num * 2 + (v.den : Int), v.den * 2⟩  -- v + 0.5
      | none => s

/-- `parse_mark_to_decimal` from `examsys_gui.py` (the Mark Normalizer).
Converts `½`-glyph marks and `a/b` fractions to decimal strings, leaves
plain numerics unchanged, and otherwise returns the stripped input
(`except: return s` in the source returns the stripped local `s`). -/
def parse_mark_to_decimal (mark : String) : String :=
  if mark = "" then ""
  else
    let s := pyStrip mark
    if s.data.contains '½' then halfBranch s
    else
      match fracMatch s.data with
      | some (nds, dds) =>
        if digitsToNat dds ≠ 0 then
          pyStrFloat ⟨(digitsToNat nds : Int), digitsToNat dds⟩
        else
          -- denominator 0: falls through to the plain-numeric check,
          -- which cannot match a string containing '/', then `return s`
          if plainNum s.data then s else s
      | none =>
        if plainNum s.data then s else s


/-! ## Data model: student answer blocks, records, worlds -/

/-- One rendered `div.student-answer-block.marked` fragment.  Each field
holds the text the corresponding DOM query would produce; `none` models
the queried element being absent.  For `username` the two layers are
distinguished because the code paths differ: `none` models the hidden
`input[id^='username']` *element* being absent (the GUI's unguarded
`locator(...).get_attribute` then raises a `TimeoutError` after its
auto-wait, while the CLI's `try/except` catches it); `some none` models
the element present with no `value` attribute (`get_attribute` returns
`None`, turned into `""` by `or ""` in both scripts); `some (some v)`
models a `value` attribute `v`. -/
structure Block where
  header : Option String             -- `p.theme` inner text
  username : Option (Option String)  -- `input[id^='username']` / its value attribute
  answer : Option String             -- `div.student_ans` inner text
  mark : Option String               -- selected `option` of `select[id^='mark']`
  comment : Option String            -- `textarea[id^='comment']` value
deriving DecidableEq

/-- One CSV output record (a StudentAnswerRecord). -/
structure Record where
  question : Nat
  studentId : String
  label : String
  mark : String
  comment : String
  answer : String
deriving DecidableEq

/-- The browsing environment for one run: the report page's title, the
hrefs of its anchors matching `a[href*='textbox_marking.php']`, and the
question pages keyed by the URL the browser dereferences.  A URL missing
from `pages`, or mapped to an empty block list, is a page on which
`wait_for_selector("div.student-answer-block.marked", timeout=10000)`
times out. -/
structure World where
  reportTitle : String
  reportHrefs : List String
  pages : List (String × List Block)

/-- 1-based enumeration of a list (Python `enumerate(xs, 1)`). -/
def enumFrom1 : Nat → List α → List (Nat × α)
  | _, [] => []
  | n, a :: t => (n, a) :: enumFrom1 (n + 1) t

/-- Concatenated map (used for flattened per-question output). -/
def catMap (f : α → List β) : List α → List β
  | [] => []
  | a :: t => f a ++ catMap f t

/-- Look up a question page's blocks by URL. -/
def lookupPage (w : World) (url : String) : Option (List Block) :=
  ((w.pages.find? (fun p => p.1 == url)).map (fun p => p.2))

/-- Navigate to a question page and wait for the student-block readiness
marker: `some bs` (nonempty) on success, `none` when the marker never
appears within the timeout (missing page or zero blocks). -/
def navBlocks (w : World) (url : String) : Option (List Block) :=
  match lookupPage w url with
  | some bs => if bs = [] then none else some bs
  | none => none

/-- The discovered question URLs:
`[absolutize(h) for h in hrefs if h and 'textbox_marking' in h]`. -/
def questionUrls (w : World) : List String :=
  (w.reportHrefs.filter (fun h => !(h == "") && pyIn "textbox_marking" h)).map
    (fun h => absolutize h)

/-! ## GUI pipeline (`examsys_gui.py`) -/

/-- Fallback label `f"Student {si+1}"` (`si` here already 1-based). -/
def studentFallback (si : Nat) : String := s!"Student {si}"

/-- Field extraction for one student block in `extract_feedback`
(`si` is the block's 1-based position on the page).  The label, answer,
mark and comment lookups are guarded by `count()` checks and fall back;
the username lookup (line 272) is not: when the hidden input element is
absent, `locator(USERNAME_SEL).get_attribute("value")` raises after its
auto-wait — modelled as `none` — and the exception escapes the
per-question handler (which wraps only the goto/wait) and aborts the
run.  When the element is present, a missing `value` attribute becomes
`""` via `or ""`. -/
def guiExtractBlock (qi si : Nat) (b : Block) : Option Record :=
  match b.username with
  | none => none
  | some attr =>
    some
      { question := qi
        studentId := attr.getD ""
        label := (b.header.map pyStrip).getD (studentFallback si)
        mark := parse_mark_to_decimal ((b.mark.map pyStrip).getD "")
        comment := (b.comment.map pyStrip).getD ""
        answer := (b.answer.map pyStrip).getD "" }

/-- The per-question student loop of `extract_feedback`, starting at
1-based block position `si`: rows written so far, and whether the loop
ran to completion (`false` = a block's username lookup raised, aborting
after the rows already written). -/
def extractRowsG (qi : Nat) : Nat → List Block → List Record × Bool
  | _, [] => ([], true)
  | si, b :: t =>
    match guiExtractBlock qi si b with
    | none => ([], false)
    | some r =>
      let rest := extractRowsG qi (si + 1) t
      (r :: rest.1, rest.2)

/-- Log message `f"\n➡️ Processing Question {qi}/{total_qs}\n"`. -/
def qMsg (qi total : Nat) : String := s!"\n➡️ Processing Question {qi}/{total}\n"

/-- Log message `f"🧑‍🎓 Found {count} students\n"`. -/
def foundStudentsMsg (n : Nat) : String := s!"🧑‍🎓 Found {n} students\n"

/-- Log message `f"⚠️ Failed to open {qurl}: {e}\n"`; the exception text
is modelled by Playwright's timeout message. -/
def failMsg (url : String) : String :=
  s!"⚠️ Failed to open {url}: Timeout 10000ms exceeded.\n"

/-- Per-student confirmation log line. -/
def rowMsg (r : Record) : String :=
  let lb := r.label
  let sid := r.studentId
  let mk := r.mark
  let a := r.answer.length
  let c := r.comment.length
  s!"  ✅ {lb} ({sid}) | mark={mk} | ans={a} chars | comm={c} chars\n"

/-- Terminal status of `extract_feedback`: `noQuestions` models the
early `return None` on zero question links, `completed` the normal
return, `failed` an exception escaping the per-question loop (the GUI's
unguarded username lookup) — the outer handler logs the traceback to the
log file only and re-raises. -/
inductive RunStatus where
  | noQuestions
  | completed
  | failed
deriving DecidableEq

/-- Orchestrator state threaded through the per-question loop: rows
written to the CSV so far, log-box messages emitted so far, the
question-page URLs passed to `page.goto`, and whether an exception has
escaped a block's field extraction (which stops the loop: the `with
open` block closes the file with the rows written so far intact). -/
structure QState where
  rows : List Record
  events : List String
  visited : List String
  aborted : Bool

/-- One iteration of the per-question loop of `extract_feedback`:
log the progress message, navigate, and either skip (timeout logged) or
extract and write the student blocks; an extraction exception short-
circuits every later iteration. -/
def processQ (w : World) (total : Nat) (st : QState) (p : Nat × String) : QState :=
  if st.aborted then st
  else
    let qi := p.1
    let qurl := p.2
    let st1 : QState :=
      { st with events := st.events ++ [qMsg qi total], visited := st.visited ++ [qurl] }
    match navBlocks w qurl with
    | none => { st1 with events := st1.events ++ [failMsg qurl] }
    | some bs =>
      let ext := extractRowsG qi 1 bs
      { st1 with
        rows := st1.rows ++ ext.1
        events := st1.events ++ [foundStudentsMsg bs.length] ++ ext.1.map rowMsg
        aborted := !ext.2 }

/-- Result of `extract_feedback`: rows streamed to the CSV, log
messages, visited question URLs, terminal status, and whether the output
file was opened (it is opened, truncating, only after discovery
succeeds). -/
structure GuiResult where
  rows : List Record
  events : List String
  visited : List String
  status : RunStatus
  fileOpened : Bool

/-- `extract_feedback` from `examsys_gui.py`: the Extraction
Orchestrator.  Progress-bar updates, the report-page `goto` and the
back-navigation between questions are presentation/session mechanics
with no effect on rows, log or status, and are not modelled.  On an
extraction exception the outer handler writes the traceback to the log
file only (not the log box) and re-raises, so no further message reaches
`events` and the "Done" line is never logged. -/
def extract_feedback (w : World)
    (outPath : String := "exam_feedback_by_question.csv") : GuiResult :=
  let ev0 := [s!"📄 Page title: {w.reportTitle}\n"]
  let urls := questionUrls w
  if urls = [] then
    { rows := [], events := ev0 ++ ["⚠️ No questions found.\n"], visited := [],
      status := RunStatus.noQuestions, fileOpened := false }
  else
    let total := urls.length
    let init : QState :=
      { rows := [], events := ev0 ++ [s!"✅ Found {total} questions.\n"], visited := [],
        aborted := false }
    let st := (enumFrom1 1 urls).foldl (processQ w total) init
    if st.aborted then
      { rows := st.rows, events := st.events, visited := st.visited,
        status := RunStatus.failed, fileOpened := true }
    else
      { rows := st.rows, events := st.events ++ [s!"\n🎉 Done → {outPath}\n"],
        visited := st.visited, status := RunStatus.completed, fileOpened := true }

/-- Header row written by `extract_feedback` (line 221 of the GUI). -/
def guiHeader : List String :=
  ["question_number", "student_id", "student_label", "mark", "comment", "student_answer"]

/-- `writer.writerow([qi, sid, label, mark, com, ans])`. -/
def serializeRecord (r : Record) : List String :=
  [toString r.question, r.studentId, r.label, r.mark, r.comment, r.answer]

/-- The CSV file produced by a GUI run, as a list of rows; `none` when
the run ends with "No questions found" before the file is opened. -/
def gui_csv (w : World) : Option (List (List String)) :=
  if questionUrls w = [] then none
  else some (guiHeader :: (extract_feedback w).rows.map serializeRecord)

/-- `open(out_path, "w", ...)`: a `"w"`-mode open truncates whatever the
file held before; any other mode is not used by the repository. -/
def openOutput (mode : String) (prev : List (List String)) : List (List String) :=
  if mode = "w" then [] else prev

/-- Contents of the output path after a GUI run that started with
`prev` already on disk: untouched when discovery finds no questions,
else truncated and rewritten. -/
def run_output_file (w : World) (prev : List (List String)) : List (List String) :=
  if questionUrls w = [] then prev
  else openOutput "w" prev ++ (guiHeader :: (extract_feedback w).rows.map serializeRecord)

/-! ## Log summary (`parse_summary_from_log`) -/

/-- Split a character list at newlines (the line structure that
`re.MULTILINE` anchors see). -/
def splitLinesL : List Char → List (List Char)
  | [] => [[]]
  | c :: cs =>
    let r := splitLinesL cs
    if c = '\n' then [] :: r
    else
      match r with
      | [] => [[c]]                 -- unreachable: the result is never []
      | h :: t => (c :: h) :: t

/-- All matches of `Found (\d+) students` in one line, left to right
(matches cannot overlap: each contains exactly one `Found `). -/
def studentMatches : List Char → List Nat
  | [] => []
  | c :: cs =>
    let l := c :: cs
    let hit :=
      if "Found ".data.isPrefixOf l then
        let rest := l.drop 6
        let ds := rest.takeWhile Char.isDigit
        if ds ≠ [] ∧ " students".data.isPrefixOf (rest.drop ds.length) then
          some (digitsToNat ds)
        else none
      else none
    match hit with
    | some v => v :: studentMatches cs
    | none => studentMatches cs

/-- `parse_summary_from_log` from `examsys_gui.py`: counts, from the log
text alone, `(total_questions, total_students, total_rows)`.  The
`re.MULTILINE` patterns `^➡️ Processing Question` and `^\s*✅ ` are
modelled per line (equivalent: each regex match sits on exactly one line
whose content before the marker is whitespace). -/
def parse_summary_from_log (log : String) : Nat × Nat × Nat :=
  let lines := splitLinesL log.data
  let totalQuestions := lines.countP (fun l => "➡️ Processing Question".data.isPrefixOf l)
  let smatches := catMap studentMatches lines
  let totalStudents := smatches.foldl max 0
  let totalRows := lines.countP (fun l => "✅ ".data.isPrefixOf (l.dropWhile isPyWs))
  (totalQuestions, totalStudents, totalRows)

/-- The log text accumulated in the GUI log box by `start` and
`choose_and_extract` up to the point where `parse_summary_from_log` is
called on it. -/
def choose_and_extract_log (w : World) (chosenUrl reportUrl : String) : String :=
  let msgs :=
    ["🌐 Opening ExamSys login page…\n",
     "🔐 Opening ExamSys login page...\n",
     "🌐 Log in, navigate to exam, then click ‘This is my exam’.\n",
     s!"✅ Exam selected:\n{chosenUrl}\n",
     s!"📄 Report page:\n{reportUrl}\n",
     "🚀 Starting extraction...\n"]
    ++ (extract_feedback w).events
  String.join msgs

/-! ## CLI pipeline (`exam_sys_saq_extraction.py`) -/

/-- Field extraction for one student block in the CLI script: each of
the five lookups is wrapped in its own `try/except` falling back to the
label synthesis or the empty string — in particular a missing username
*element* is caught (unlike in the GUI) and yields `""`, as does a
missing `value` attribute via `or ""`; the mark is written raw, with no
normalization. -/
def cliExtractBlock (qi si : Nat) (b : Block) : Record :=
  { question := qi
    studentId := (b.username.getD none).getD ""
    label := (b.header.map pyStrip).getD (studentFallback si)
    mark := (b.mark.map pyStrip).getD ""
    comment := (b.comment.map pyStrip).getD ""
    answer := (b.answer.map pyStrip).getD "" }

/-- Header row written by the CLI script (line 46): note
`student_answer` in fourth position, before `mark` and `comment`. -/
def cliHeader : List String :=
  ["question_number", "student_id", "student_label", "student_answer", "mark", "comment"]

/-- `writer.writerow([qi+1, student_id, label, answer, mark, comment])`. -/
def cliSerialize (r : Record) : List String :=
  [toString r.question, r.studentId, r.label, r.answer, r.mark, r.comment]

/-- Where the single driven tab currently sits during the CLI loop:
the report (index) page, or one question's marking page. -/
inductive CliLoc where
  | report
  | question (url : String)
deriving DecidableEq

/-- The anchors matching `a[href*='textbox_marking.php']` on the current
page, as re-queried by `cur_links = page.locator(...).all()` each
iteration: on the report page these are the discovered hrefs; on a
question page none of the report's question links are present (the
spec's navigation model: the portal requires returning to the index
before the next question link is resolvable). -/
def curLinks (w : World) : CliLoc → List String
  | CliLoc.report => w.reportHrefs
  | CliLoc.question _ => []

/-- The CLI per-question loop, with remaining iterations `rem` (from the
`for qi in range(len(links))` header), current 0-based index `qi`, and
current page `loc`.  Each iteration re-queries the links on the
*current* page and breaks when `qi >= len(cur_links)`; on success it
writes the rows and navigates back to `REPORT_URL`; on a readiness
timeout the `continue` skips that navigation, leaving the tab on the
failed question's page, so the next iteration's re-query finds no links
and the guard breaks. -/
def cliLoop (w : World) : Nat → Nat → CliLoc → List Record → List Record
  | 0, _, _, acc => acc
  | rem + 1, qi, loc, acc =>
    let links := curLinks w loc
    if links.length ≤ qi then acc
    else
      let href := links.getD qi ""
      match navBlocks w href with
      | some bs =>
        cliLoop w rem (qi + 1) CliLoc.report
          (acc ++ (enumFrom1 1 bs).map (fun q => cliExtractBlock (qi + 1) q.1 q.2))
      | none => cliLoop w rem (qi + 1) (CliLoc.question href) acc

/-- Rows contributed by one question in the CLI loop (used to state what
the loop actually writes). -/
def cliQRows (w : World) (p : Nat × String) : List Record :=
  match navBlocks w p.2 with
  | some bs => (enumFrom1 1 bs).map (fun q => cliExtractBlock p.1 q.1 q.2)
  | none => []

/-- Result of the CLI `main`: rows, and the CSV file (`none` when zero
links are found and the script returns before opening it). -/
structure CliResult where
  rows : List Record
  csv : Option (List (List String))

/-- `main` from `exam_sys_saq_extraction.py`. -/
def cli_main (w : World) : CliResult :=
  if w.reportHrefs = [] then { rows := [], csv := none }
  else
    let rows := cliLoop w w.reportHrefs.length 0 CliLoc.report []
    { rows := rows
      csv := some (cliHeader :: rows.map cliSerialize) }

/-! ## Concrete scenario worlds (used by witnesses and counterexamples) -/

/-- A fully populated student block. -/
def blockAlice : Block :=
  { header := some "Alice Smith", username := some (some "psxa1"),
    answer := some "An answer.", mark := some "2", comment := some "Good" }

/-- A student block whose mark control is missing. -/
def blockBob : Block :=
  { header := some "Bob Jones", username := some (some "psxb2"),
    answer := some "Another.", mark := none, comment := some "Ok" }

/-- End-to-end scenario of the spec (section 8): two question links;
question 1 renders two blocks (second missing its mark control),
question 2 renders zero blocks. -/
def w7 : World :=
  { reportTitle := "ExamSys: Primary Mark by Question"
    reportHrefs := ["textbox_marking.php?paperID=1&q=1", "textbox_marking.php?paperID=1&q=2"]
    pages :=
      [(absolutize "textbox_marking.php?paperID=1&q=1", [blockAlice, blockBob]),
       (absolutize "textbox_marking.php?paperID=1&q=2", [])] }

/-- Skip-semantics scenario: three questions, question 2's readiness
marker never appears. -/
def w1 : World :=
  { reportTitle := "ExamSys: Primary Mark by Question"
    reportHrefs :=
      ["textbox_marking.php?q=1", "textbox_marking.php?q=2", "textbox_marking.php?q=3"]
    pages :=
      [(absolutize "textbox_marking.php?q=1", [blockAlice]),
       (absolutize "textbox_marking.php?q=3", [blockBob])] }

/-- Report page with no marking-page anchors. -/
def w8 : World :=
  { reportTitle := "Some other report", reportHrefs := [], pages := [] }

/-- CLI world with a single question and a single block whose selected
mark is the raw half glyph. -/
def wCli : World :=
  { reportTitle := "ExamSys: Primary Mark by Question"
    reportHrefs := ["textbox_marking.php?q=1"]
    pages :=
      [("textbox_marking.php?q=1",
        [{ header := some "Carol Day", username := some (some "psxc3"),
           answer := some "Text", mark := some "½", comment := some "ok" }])] }

/-- GUI world with a single question and a single half-glyph mark. -/
def wHalf : World :=
  { reportTitle := "ExamSys: Primary Mark by Question"
    reportHrefs := ["textbox_marking.php?q=1"]
    pages :=
      [(absolutize "textbox_marking.php?q=1",
        [{ header := some "Carol Day", username := some (some "psxc3"),
           answer := some "Text", mark := some "½", comment := some "ok" }])] }


/-- CLI world with three questions: question 2's readiness marker never
appears, while question 3's page is present and would load. -/
def wCliSkip : World :=
  { reportTitle := "ExamSys: Primary Mark by Question"
    reportHrefs :=
      ["textbox_marking.php?q=1", "textbox_marking.php?q=2", "textbox_marking.php?q=3"]
    pages :=
      [("textbox_marking.php?q=1", [blockAlice]),
       ("textbox_marking.php?q=3", [blockBob])] }

/-- GUI world whose single question page renders one block lacking the
hidden username input element (every other field present). -/
def wAbort : World :=
  { reportTitle := "ExamSys: Primary Mark by Question"
    reportHrefs := ["textbox_marking.php?q=1"]
    pages :=
      [(absolutize "textbox_marking.php?q=1",
        [{ header := some "Dana Eve", username := none,
           answer := some "Words", mark := some "1", comment := some "hm" }])] }

/-- Every block of every question page carries its hidden username input
element, so no GUI field extraction raises. -/
def worldClean (w : World) : Bool :=
  w.pages.all (fun pr => pr.2.all (fun b => b.username.isSome))

/-- Rows contributed by one question in the GUI loop: the extracted
records on success, nothing on a navigation timeout. -/
def qRows (w : World) (p : Nat × String) : List Record :=
  match navBlocks w p.2 with
  | some bs => (extractRowsG p.1 1 bs).1
  | none => []

/-- Log messages contributed by one question in the GUI loop. -/
def qEvts (w : World) (total : Nat) (p : Nat × String) : List String :=
  qMsg p.1 total ::
    (match navBlocks w p.2 with
     | some bs => foundStudentsMsg bs.length :: (extractRowsG p.1 1 bs).1.map rowMsg
     | none => [failMsg p.2])

/-! ## Helper predicates for whitespace stripping -/

/-- The first character, if any, is not whitespace. -/
def headOkWs (l : List Char) : Prop :=
  match l.head? with
  | some c => isPyWs c = false
  | none => True

/-- The last character, if any, is not whitespace. -/
def lastOkWs (l : List Char) : Prop :=
  match l.getLast? with
  | some c => isPyWs c = false
  | none => True

/-! ## Lemmas: stripping -/

theorem dropWhile_eq_self_of_headOk (p : Char → Bool) (l : List Char)
    (h : match l.head? with | some c => p c = false | none => True) :
    l.dropWhile p = l := by
  cases l with
  | nil => rfl
  | cons c t =>
    have hc : p c = false := h
    simp [List.dropWhile, hc]

theorem headOk_dropWhile (l : List Char) : headOkWs (l.dropWhile isPyWs) := by
  induction l with
  | nil => trivial
  | cons c t ih =>
    by_cases hc : isPyWs c = true
    · simpa [List.dropWhile, hc] using ih
    · simp only [Bool.not_eq_true] at hc
      simp [List.dropWhile, hc, headOkWs]

theorem head?_rstripWsL (l : List Char) (c : Char)
    (h : (rstripWsL l).head? = some c) : l.head? = some c := by
  cases l with
  | nil => simp [rstripWsL] at h
  | cons a t =>
    rw [rstripWsL] at h
    rcases ht : rstripWsL t with _ | ⟨b, bs⟩
    · rw [ht] at h
      by_cases ha : isPyWs a = true
      · simp [ha] at h
      · simp only [Bool.not_eq_true] at ha
        simp [ha] at h
        simp [h]
    · rw [ht] at h
      simp at h
      simp [h]

theorem headOk_rstripWsL (l : List Char) (h : headOkWs l) : headOkWs (rstripWsL l) := by
  unfold headOkWs
  rcases hh : (rstripWsL l).head? with _ | c
  · trivial
  · have := head?_rstripWsL l c hh
    unfold headOkWs at h
    rw [this] at h
    exact h

theorem lastOk_rstripWsL (l : List Char) : lastOkWs (rstripWsL l) := by
  induction l with
  | nil => trivial
  | cons a t ih =>
    rw [rstripWsL]
    rcases ht : rstripWsL t with _ | ⟨b, bs⟩
    · by_cases ha : isPyWs a = true
      · simp [ha]; trivial
      · simp only [Bool.not_eq_true] at ha
        simp [ha, lastOkWs]
    · rw [ht] at ih
      simpa [lastOkWs, List.getLast?_cons_cons] using ih

theorem rstripWsL_eq_self (l : List Char) (h : lastOkWs l) : rstripWsL l = l := by
  induction l with
  | nil => rfl
  | cons a t ih =>
    cases t with
    | nil =>
      have ha : isPyWs a = false := h
      simp [rstripWsL, ha]
    | cons b bs =>
      have hbt : lastOkWs (b :: bs) := by
        unfold lastOkWs at h ⊢
        rwa [List.getLast?_cons_cons] at h
      rw [rstripWsL, ih hbt]

theorem stripWsL_eq_self (l : List Char) (h1 : headOkWs l) (h2 : lastOkWs l) :
    stripWsL l = l := by
  rw [stripWsL, dropWhile_eq_self_of_headOk isPyWs l h1, rstripWsL_eq_self l h2]

theorem headOk_stripWsL (l : List Char) : headOkWs (stripWsL l) :=
  headOk_rstripWsL _ (headOk_dropWhile l)

theorem lastOk_stripWsL (l : List Char) : lastOkWs (stripWsL l) :=
  lastOk_rstripWsL _

theorem headOk_append (l₁ l₂ : List Char) (h : headOkWs l₁) (hne : l₁ ≠ []) :
    headOkWs (l₁ ++ l₂) := by
  cases l₁ with
  | nil => exact absurd rfl hne
  | cons c t => exact h

theorem getLast?_append_ne (l₁ l₂ : List Char) (h : l₂ ≠ []) :
    (l₁ ++ l₂).getLast? = l₂.getLast? := by
  induction l₁ with
  | nil => rfl
  | cons a t ih =>
    rcases hx : t ++ l₂ with _ | ⟨y, ys⟩
    · rcases List.append_eq_nil.mp hx with ⟨-, h2⟩
      exact absurd h2 h
    · calc (a :: t ++ l₂).getLast? = (t ++ l₂).getLast? := by
            rw [List.cons_append, hx, List.getLast?_cons_cons, ← hx]
        _ = l₂.getLast? := ih

theorem lastOk_append (l₁ l₂ : List Char) (h1 : lastOkWs l₁) (h2 : lastOkWs l₂) :
    lastOkWs (l₁ ++ l₂) := by
  cases l₂ with
  | nil => simpa using h1
  | cons b bs =>
    unfold lastOkWs
    rw [getLast?_append_ne l₁ (b :: bs) (by simp)]
    exact h2

theorem lastOk_dropWhile (p : Char → Bool) (l : List Char) (h : lastOkWs l) :
    lastOkWs (l.dropWhile p) := by
  induction l with
  | nil => trivial
  | cons c t ih =>
    by_cases hc : p c = true
    · rw [List.dropWhile_cons_of_pos hc]
      cases t with
      | nil => trivial
      | cons b bs =>
        apply ih
        unfold lastOkWs at h ⊢
        rwa [List.getLast?_cons_cons] at h
    · simp only [Bool.not_eq_true] at hc
      rwa [List.dropWhile_cons_of_neg (by simp [hc])]

/-- `"".strip()` style idempotence: data-level view of `pyStrip`. -/
theorem pyStrip_data (s : String) : (pyStrip s).data = stripWsL s.data := rfl

theorem data_append (a b : String) : (a ++ b).data = a.data ++ b.data := rfl

theorem pyStrip_eq_self_of (s : String) (h1 : headOkWs s.data) (h2 : lastOkWs s.data) :
    pyStrip s = s := by
  have : stripWsL s.data = s.data := stripWsL_eq_self s.data h1 h2
  show String.mk (stripWsL s.data) = s
  rw [this]

theorem pyStrip_idem (s : String) : pyStrip (pyStrip s) = pyStrip s :=
  pyStrip_eq_self_of _ (headOk_stripWsL s.data) (lastOk_stripWsL s.data)

theorem ne_empty_of_startswith_http (s : String) (h : pyStartswith s "http" = true) :
    s ≠ "" := by
  intro he
  subst he
  exact absurd h (by decide)

/-! ## Lemmas: the URL resolver -/

theorem absolutize_empty : absolutize "" = "" := rfl

theorem absolutize_of_http (s : String) (hne : s ≠ "")
    (h1 : pyStartswith (pyStrip s) "http" = true) :
    absolutize s = pyStrip s := by
  unfold absolutize
  rw [if_neg hne]
  dsimp only
  rw [if_pos h1]

/-- Every output of `absolutize` is either empty or an `http`-prefixed
string with no surrounding whitespace. -/
theorem absolutize_good (x : String) :
    absolutize x = "" ∨
      (pyStartswith (absolutize x) "http" = true ∧
        pyStrip (absolutize x) = absolutize x) := by
  by_cases hx : x = ""
  · left
    rw [hx, absolutize_empty]
  · right
    have hstrip : lastOkWs (pyStrip x).data := lastOk_stripWsL x.data
    unfold absolutize
    rw [if_neg hx]
    dsimp only
    by_cases g1 : pyStartswith (pyStrip x) "http" = true
    · rw [if_pos g1]
      exact ⟨g1, pyStrip_idem x⟩
    · rw [if_neg g1]
      by_cases g2 : pyStartswith (pyStrip x) "/" = true
      · rw [if_pos g2]
        refine ⟨rfl, pyStrip_eq_self_of _ (by exact rfl) ?_⟩
        exact lastOk_append _ _ (by exact rfl) hstrip
      · rw [if_neg g2]
        by_cases g3 : pyStartswith (pyStrip x) "../" = true
        · rw [if_pos g3]
          refine ⟨rfl, pyStrip_eq_self_of _ (by exact rfl) ?_⟩
          exact lastOk_append _ _ (by exact rfl)
            (lastOk_dropWhile _ _ hstrip)
        · rw [if_neg g3]
          by_cases g4 : pyStartswith (pyStrip x) "reports/" = true
          · rw [if_pos g4]
            refine ⟨rfl, pyStrip_eq_self_of _ (by exact rfl) ?_⟩
            exact lastOk_append _ _ (by exact rfl) hstrip
          · rw [if_neg g4]
            by_cases g5 : pyStartswith (pyStrip x) "textbox_marking" = true
            · rw [if_pos g5]
              refine ⟨rfl, pyStrip_eq_self_of _ (by exact rfl) ?_⟩
              exact lastOk_append _ _ (by exact rfl) hstrip
            · rw [if_neg g5]
              refine ⟨rfl, pyStrip_eq_self_of _ (by exact rfl) ?_⟩
              exact lastOk_append _ _ (by exact rfl)
                (lastOk_dropWhile _ _ hstrip)

/-- C9: the URL Resolver is idempotent — `resolve(resolve(x)) =
resolve(x)` for every input string — and leaves an already-absolute,
scheme-prefixed URL (no surrounding whitespace) unchanged. -/
theorem c9_absolutize_idempotent (x : String) :
    absolutize (absolutize x) = absolutize x ∧
    (pyStartswith x "http" = true → pyStrip x = x → absolutize x = x) := by
  constructor
  · rcases absolutize_good x with he | ⟨h1, h2⟩
    · rw [he, absolutize_empty]
    · have hne : absolutize x ≠ "" := ne_empty_of_startswith_http _ h1
      have := absolutize_of_http (absolutize x) hne (by rw [h2]; exact h1)
      rw [this, h2]
  · intro h1 h2
    have hne : x ≠ "" := ne_empty_of_startswith_http _ h1
    have hb : pyStartswith (pyStrip x) "http" = true := by rw [h2]; exact h1
    rw [absolutize_of_http x hne hb, h2]

/-- Witness for C9 at a concrete already-absolute URL. -/
theorem c9_witness :
    absolutize (absolutize "https://examsys.nottingham.ac.uk/reports/textbox_marking.php?id=9")
        = absolutize "https://examsys.nottingham.ac.uk/reports/textbox_marking.php?id=9" ∧
      absolutize "https://examsys.nottingham.ac.uk/reports/textbox_marking.php?id=9"
        = "https://examsys.nottingham.ac.uk/reports/textbox_marking.php?id=9" :=
  ⟨(c9_absolutize_idempotent "https://examsys.nottingham.ac.uk/reports/textbox_marking.php?id=9").1,
   (c9_absolutize_idempotent "https://examsys.nottingham.ac.uk/reports/textbox_marking.php?id=9").2
     (by decide) (by decide)⟩

/-! ## Lemmas: list plumbing -/

theorem mem_catMap_of (f : α → List β) {a : α} {b : β} {l : List α}
    (ha : a ∈ l) (hb : b ∈ f a) : b ∈ catMap f l := by
  induction l with
  | nil => cases ha
  | cons x t ih =>
    rcases List.mem_cons.mp ha with rfl | ht
    · exact List.mem_append.mpr (Or.inl hb)
    · exact List.mem_append.mpr (Or.inr (ih ht))

theorem exists_of_mem_catMap (f : α → List β) {b : β} {l : List α}
    (h : b ∈ catMap f l) : ∃ a, a ∈ l ∧ b ∈ f a := by
  induction l with
  | nil => cases h
  | cons x t ih =>
    rcases List.mem_append.mp h with hx | ht
    · exact ⟨x, List.mem_cons_self x t, hx⟩
    · rcases ih ht with ⟨a, ha, hb⟩
      exact ⟨a, List.mem_cons_of_mem x ha, hb⟩

theorem enumFrom1_length (n : Nat) (l : List α) :
    (enumFrom1 n l).length = l.length := by
  induction l generalizing n with
  | nil => rfl
  | cons a t ih => simp [enumFrom1, ih]

theorem enumFrom1_fst_ge (n : Nat) (l : List α) :
    ∀ p ∈ enumFrom1 n l, n ≤ p.1 := by
  induction l generalizing n with
  | nil => intro p hp; cases hp
  | cons a t ih =>
    intro p hp
    rcases List.mem_cons.mp hp with rfl | ht
    · exact Nat.le_refl n
    · exact Nat.le_of_succ_le (ih (n + 1) p ht)

theorem enumFrom1_snd_unique (n : Nat) (l : List α) :
    ∀ p q, p ∈ enumFrom1 n l → q ∈ enumFrom1 n l → p.1 = q.1 → p.2 = q.2 := by
  induction l generalizing n with
  | nil => intro p q hp; cases hp
  | cons a t ih =>
    intro p q hp hq heq
    rcases List.mem_cons.mp hp with rfl | hpt
    · rcases List.mem_cons.mp hq with rfl | hqt
      · rfl
      · have := enumFrom1_fst_ge (n + 1) t q hqt
        omega
    · rcases List.mem_cons.mp hq with rfl | hqt
      · have := enumFrom1_fst_ge (n + 1) t p hpt
        omega
      · exact ih (n + 1) p q hpt hqt heq

theorem enumFrom1_mem_snd {n : Nat} {l : List α} {p : Nat × α}
    (h : p ∈ enumFrom1 n l) : p.2 ∈ l := by
  induction l generalizing n with
  | nil => cases h
  | cons a t ih =>
    rcases List.mem_cons.mp h with rfl | ht
    · exact List.mem_cons_self a t
    · exact List.mem_cons_of_mem a (ih ht)

/-! ## Lemmas: the GUI orchestrator loop -/

theorem navBlocks_some (w : World) (url : String) (bs : List Block)
    (h : navBlocks w url = some bs) :
    bs ≠ [] ∧ ∃ pr, pr ∈ w.pages ∧ pr.2 = bs := by
  unfold navBlocks at h
  rcases hl : lookupPage w url with _ | bs'
  · rw [hl] at h
    cases h
  · rw [hl] at h
    change (if bs' = [] then none else some bs') = some bs at h
    by_cases hb : bs' = []
    · rw [if_pos hb] at h
      cases h
    · rw [if_neg hb] at h
      injection h with h
      subst h
      refine ⟨hb, ?_⟩
      unfold lookupPage at hl
      rcases hf : w.pages.find? (fun p => p.1 == url) with _ | pr
      · rw [hf] at hl
        cases hl
      · rw [hf] at hl
        injection hl with hl
        exact ⟨pr, List.mem_of_find?_eq_some hf, hl⟩

/-- A block whose username input is present extracts successfully. -/
theorem extractRowsG_ok (qi : Nat) : ∀ (si : Nat) (bs : List Block),
    (∀ b ∈ bs, b.username ≠ none) → (extractRowsG qi si bs).2 = true := by
  intro si bs
  induction bs generalizing si with
  | nil => intro _; rfl
  | cons b t ih =>
    intro h
    unfold extractRowsG
    rcases hb : guiExtractBlock qi si b with _ | r
    · exfalso
      unfold guiExtractBlock at hb
      rcases hu : b.username with _ | attr
      · exact h b (List.mem_cons_self b t) hu
      · rw [hu] at hb
        cases hb
    · dsimp only
      exact ih (si + 1) (fun b' hb' => h b' (List.mem_cons_of_mem b hb'))

/-- In a clean world, every page reached by navigation has only clean
blocks. -/
theorem clean_navBlocks (w : World) (hw : worldClean w = true) (url : String)
    (bs : List Block) (h : navBlocks w url = some bs) :
    ∀ b ∈ bs, b.username ≠ none := by
  obtain ⟨-, pr, hpr, hpr2⟩ := navBlocks_some w url bs h
  intro b hb hn
  have h1 := (List.all_eq_true.mp hw) pr hpr
  have h2 := (List.all_eq_true.mp h1) b (hpr2 ▸ hb)
  rw [hn] at h2
  cases h2

/-- One step of the per-question loop on a clean world, not yet aborted,
restated through `qRows` and `qEvts`. -/
theorem processQ_eq_clean (w : World) (total : Nat) (hw : worldClean w = true)
    (st : QState) (p : Nat × String) (ha : st.aborted = false) :
    processQ w total st p =
      { rows := st.rows ++ qRows w p
        events := st.events ++ qEvts w total p
        visited := st.visited ++ [p.2]
        aborted := false } := by
  unfold processQ qRows qEvts
  rw [if_neg (by simp [ha])]
  rcases h : navBlocks w p.2 with _ | bs
  · simp [h, ha]
  · have hok : (extractRowsG p.1 1 bs).2 = true :=
      extractRowsG_ok p.1 1 bs (clean_navBlocks w hw p.2 bs h)
    simp [h, hok]

/-- On a clean world the per-question `foldl` appends exactly the
per-question rows, events and visits, in order, and never aborts. -/
theorem foldl_processQ_clean (w : World) (total : Nat) (hw : worldClean w = true) :
    ∀ (l : List (Nat × String)) (st : QState), st.aborted = false →
      (l.foldl (processQ w total) st).rows = st.rows ++ catMap (qRows w) l ∧
      (l.foldl (processQ w total) st).events = st.events ++ catMap (qEvts w total) l ∧
      (l.foldl (processQ w total) st).visited = st.visited ++ l.map (fun p => p.2) ∧
      (l.foldl (processQ w total) st).aborted = false := by
  intro l
  induction l with
  | nil => intro st ha; simp [catMap, ha]
  | cons p t ih =>
    intro st ha
    have hstep := processQ_eq_clean w total hw st p ha
    rcases ih (processQ w total st p) (by rw [hstep]) with ⟨hr, he, hv, hab⟩
    rw [List.foldl_cons] at *
    refine ⟨?_, ?_, ?_, hab⟩
    · rw [hr, hstep]
      simp [catMap]
    · rw [he, hstep]
      simp [catMap]
    · rw [hv, hstep]
      simp

/-- `extract_feedback` on a clean world that discovers at least one
question: completed status, rows/events/visited in closed form. -/
theorem extract_feedback_spec (w : World) (hw : worldClean w = true)
    (hne : questionUrls w ≠ []) :
    (extract_feedback w).status = RunStatus.completed ∧
    (extract_feedback w).rows = catMap (qRows w) (enumFrom1 1 (questionUrls w)) ∧
    (extract_feedback w).events =
      ([s!"📄 Page title: {w.reportTitle}\n"] ++
        [s!"✅ Found {(questionUrls w).length} questions.\n"]) ++
        catMap (qEvts w (questionUrls w).length) (enumFrom1 1 (questionUrls w)) ++
        [s!"\n🎉 Done → exam_feedback_by_question.csv\n"] ∧
    (extract_feedback w).visited = (enumFrom1 1 (questionUrls w)).map (fun p => p.2) ∧
    (extract_feedback w).fileOpened = true := by
  unfold extract_feedback
  rw [if_neg hne]
  dsimp only
  rcases foldl_processQ_clean w (questionUrls w).length hw (enumFrom1 1 (questionUrls w))
      { rows := [],
        events := [s!"📄 Page title: {w.reportTitle}\n"] ++
          [s!"✅ Found {(questionUrls w).length} questions.\n"],
        visited := [], aborted := false } rfl with ⟨hr, he, hv, hab⟩
  rw [if_neg (by simp only [Bool.not_eq_true]; exact hab)]
  refine ⟨rfl, ?_, ?_, ?_, rfl⟩
  · rw [hr]
    rfl
  · rw [he]
    rfl
  · rw [hv]
    rfl

/-! ## Lemmas: provenance of extracted records -/

/-- Every record a question loop emits comes from a successful
`guiExtractBlock` on one of the page's blocks. -/
theorem mem_extractRowsG (qi : Nat) : ∀ (si : Nat) (bs : List Block) (r : Record),
    r ∈ (extractRowsG qi si bs).1 →
      ∃ si' b, b ∈ bs ∧ guiExtractBlock qi si' b = some r := by
  intro si bs
  induction bs generalizing si with
  | nil => intro r h; cases h
  | cons b t ih =>
    intro r h
    unfold extractRowsG at h
    rcases hb : guiExtractBlock qi si b with _ | r0
    · rw [hb] at h
      cases h
    · rw [hb] at h
      dsimp only at h
      rcases List.mem_cons.mp h with rfl | ht
      · exact ⟨si, b, List.mem_cons_self b t, hb⟩
      · obtain ⟨si', b', hb', heq⟩ := ih (si + 1) r ht
        exact ⟨si', b', List.mem_cons_of_mem b hb', heq⟩

/-- Fields of a successfully extracted GUI record. -/
theorem guiExtractBlock_some (qi si : Nat) (b : Block) (r : Record)
    (h : guiExtractBlock qi si b = some r) :
    r.question = qi ∧
    r.mark = parse_mark_to_decimal ((b.mark.map pyStrip).getD "") := by
  unfold guiExtractBlock at h
  rcases hu : b.username with _ | attr
  · rw [hu] at h
    cases h
  · rw [hu] at h
    injection h with h
    subst h
    exact ⟨rfl, rfl⟩

theorem question_of_mem_qRows (w : World) (p : Nat × String) (r : Record)
    (h : r ∈ qRows w p) : r.question = p.1 := by
  unfold qRows at h
  rcases hn : navBlocks w p.2 with _ | bs
  · rw [hn] at h
    exact absurd h (List.not_mem_nil r)
  · rw [hn] at h
    obtain ⟨si, b, hb, heq⟩ := mem_extractRowsG p.1 1 bs r h
    exact (guiExtractBlock_some p.1 si b r heq).1

/-- Every row of any GUI run (clean or aborted) originates from a
successful block extraction on a navigated page. -/
theorem mem_rows_foldl (w : World) (total : Nat) :
    ∀ (l : List (Nat × String)) (st : QState) (r : Record),
      r ∈ (l.foldl (processQ w total) st).rows →
      r ∈ st.rows ∨ ∃ p, p ∈ l ∧ ∃ bs, navBlocks w p.2 = some bs ∧
        r ∈ (extractRowsG p.1 1 bs).1 := by
  intro l
  induction l with
  | nil => intro st r h; exact Or.inl h
  | cons p t ih =>
    intro st r h
    rw [List.foldl_cons] at h
    rcases ih (processQ w total st p) r h with h1 | ⟨q, hq, bs, hnav, hbs⟩
    · unfold processQ at h1
      by_cases ha : st.aborted = true
      · rw [if_pos ha] at h1
        exact Or.inl h1
      · rw [if_neg ha] at h1
        dsimp only at h1
        rcases hn : navBlocks w p.2 with _ | bs
        · rw [hn] at h1
          exact Or.inl h1
        · rw [hn] at h1
          rcases List.mem_append.mp h1 with h2 | h3
          · exact Or.inl h2
          · exact Or.inr ⟨p, List.mem_cons_self p t, bs, hn, h3⟩
    · exact Or.inr ⟨q, List.mem_cons_of_mem p hq, bs, hnav, hbs⟩

/-! ## Lemmas: the CLI loop -/

/-- A list indexed within range splits at the index. -/
theorem drop_eq_getD_cons (d : α) : ∀ (l : List α) (i : Nat), i < l.length →
    l.drop i = l.getD i d :: l.drop (i + 1) := by
  intro l
  induction l with
  | nil => intro i h; cases h
  | cons a t ih =>
    intro i h
    cases i with
    | zero => rfl
    | succ n => exact ih n (Nat.lt_of_succ_lt_succ h)

theorem takeWhile_cons_eq (p : α → Bool) (x : α) (t : List α) :
    (x :: t).takeWhile p = if p x = true then x :: t.takeWhile p else [] := by
  cases hx : p x <;> simp [List.takeWhile, hx]

/-- Once the tab is left on a question page, the next iteration finds no
links and the `qi >= len(cur_links)` guard breaks the loop at once. -/
theorem cliLoop_question_eq (w : World) (rem qi : Nat) (href : String)
    (acc : List Record) :
    cliLoop w rem qi (CliLoc.question href) acc = acc := by
  cases rem with
  | zero => rfl
  | succ n =>
    unfold cliLoop
    dsimp only [curLinks, List.length]
    rw [if_pos (Nat.zero_le qi)]

/-- Starting from the report page at index `qi`, the CLI loop writes the
rows of exactly the maximal all-successful run of questions from `qi`
on: the first readiness timeout strands the tab on the failed question's
page and the following iteration breaks. -/
theorem cliLoop_report_eq (w : World) : ∀ (rem qi : Nat) (acc : List Record),
    rem + qi = w.reportHrefs.length →
    cliLoop w rem qi CliLoc.report acc =
      acc ++ catMap (cliQRows w)
        (enumFrom1 (qi + 1)
          ((w.reportHrefs.drop qi).takeWhile (fun h => (navBlocks w h).isSome))) := by
  intro rem
  induction rem with
  | zero =>
    intro qi acc h
    have hd : w.reportHrefs.drop qi = [] := List.drop_of_length_le (by omega)
    rw [hd]
    simp [cliLoop, catMap, enumFrom1]
  | succ n ih =>
    intro qi acc h
    have hqi : qi < w.reportHrefs.length := by omega
    have hd := drop_eq_getD_cons "" w.reportHrefs qi hqi
    unfold cliLoop
    rw [if_neg (by simp [curLinks]; omega)]
    dsimp only [curLinks]
    rcases hnav : navBlocks w (w.reportHrefs.getD qi "") with _ | bs
    · dsimp only
      rw [cliLoop_question_eq, hd, takeWhile_cons_eq,
        if_neg (by rw [hnav]; simp)]
      simp [catMap, enumFrom1]
    · dsimp only
      rw [ih (qi + 1) _ (by omega), hd, takeWhile_cons_eq,
        if_pos (by rw [hnav]; rfl)]
      rw [show enumFrom1 (qi + 1) (w.reportHrefs.getD qi "" ::
            (w.reportHrefs.drop (qi + 1)).takeWhile (fun h => (navBlocks w h).isSome)) =
          (qi + 1, w.reportHrefs.getD qi "") ::
            enumFrom1 (qi + 2)
              ((w.reportHrefs.drop (qi + 1)).takeWhile (fun h => (navBlocks w h).isSome))
          from rfl]
      rw [show ∀ x l, catMap (cliQRows w) (x :: l) = cliQRows w x ++ catMap (cliQRows w) l
          from fun x l => rfl]
      rw [show cliQRows w (qi + 1, w.reportHrefs.getD qi "") =
          (enumFrom1 1 bs).map (fun q => cliExtractBlock (qi + 1) q.1 q.2) from by
        unfold cliQRows
        rw [hnav]]
      rw [List.append_assoc]

/-- The CLI run writes exactly the rows of the maximal prefix of
questions whose pages all satisfy the readiness marker. -/
theorem cli_main_rows (w : World) :
    (cli_main w).rows =
      catMap (cliQRows w)
        (enumFrom1 1 (w.reportHrefs.takeWhile (fun h => (navBlocks w h).isSome))) := by
  unfold cli_main
  by_cases h : w.reportHrefs = []
  · rw [if_pos h, h]
    rfl
  · rw [if_neg h]
    dsimp only
    rw [cliLoop_report_eq w w.reportHrefs.length 0 [] (by omega)]
    rfl

/-! ## Lemmas: character classes of the fraction regex -/

theorem mem_takeWhile_pred (p : α → Bool) (l : List α) :
    ∀ a ∈ l.takeWhile p, p a = true := by
  induction l with
  | nil => intro a h; cases h
  | cons x t ih =>
    intro a h
    by_cases hx : p x = true
    · rw [takeWhile_cons_eq, if_pos hx] at h
      rcases List.mem_cons.mp h with rfl | ht
      · exact hx
      · exact ih a ht
    · rw [takeWhile_cons_eq, if_neg hx] at h
      cases h

theorem fracMatch_chars (l : List Char) (n d : List Char)
    (h : fracMatch l = some (n, d)) :
    ∀ c ∈ l, c.isDigit = true ∨ isPyWs c = true ∨ c = '/' := by
  unfold fracMatch at h
  by_cases hn : l.takeWhile Char.isDigit = []
  · rw [if_pos hn] at h
    cases h
  · rw [if_neg hn] at h
    split at h
    case _ r3 heq =>
      dsimp only at h
      by_cases hd : (r3.dropWhile isPyWs).takeWhile Char.isDigit = []
      · rw [if_pos hd] at h
        cases h
      · rw [if_neg hd] at h
        by_cases hrest : (r3.dropWhile isPyWs).dropWhile Char.isDigit = []
        · rw [if_pos hrest] at h
          intro c hc
          have hl : l.takeWhile Char.isDigit ++ l.dropWhile Char.isDigit = l :=
            List.takeWhile_append_dropWhile Char.isDigit l
          rcases List.mem_append.mp (by rw [hl]; exact hc) with h1 | h2
          · exact Or.inl (mem_takeWhile_pred _ _ c h1)
          · have hl2 : (l.dropWhile Char.isDigit).takeWhile isPyWs ++
                (l.dropWhile Char.isDigit).dropWhile isPyWs = l.dropWhile Char.isDigit :=
              List.takeWhile_append_dropWhile isPyWs _
            rcases List.mem_append.mp (by rw [hl2]; exact h2) with h3 | h4
            · exact Or.inr (Or.inl (mem_takeWhile_pred _ _ c h3))
            · rw [heq] at h4
              rcases List.mem_cons.mp h4 with rfl | h5
              · exact Or.inr (Or.inr rfl)
              · have hl3 : r3.takeWhile isPyWs ++ r3.dropWhile isPyWs = r3 :=
                  List.takeWhile_append_dropWhile isPyWs r3
                rcases List.mem_append.mp (by rw [hl3]; exact h5) with h6 | h7
                · exact Or.inr (Or.inl (mem_takeWhile_pred _ _ c h6))
                · have hl4 : (r3.dropWhile isPyWs).takeWhile Char.isDigit ++
                      (r3.dropWhile isPyWs).dropWhile Char.isDigit = r3.dropWhile isPyWs :=
                    List.takeWhile_append_dropWhile Char.isDigit _
                  rcases List.mem_append.mp (by rw [hl4]; exact h7) with h8 | h9
                  · exact Or.inl (mem_takeWhile_pred _ _ c h8)
                  · rw [hrest] at h9
                    cases h9
        · rw [if_neg hrest] at h
          cases h
    case _ =>
      cases h

theorem no_half_of_fracMatch (l n d : List Char) (h : fracMatch l = some (n, d)) :
    l.contains '½' = false := by
  cases hb : l.contains '½' with
  | false => rfl
  | true =>
    exfalso
    have hm : '½' ∈ l := by simpa using hb
    rcases fracMatch_chars l n d h '½' hm with h1 | h1 | h1
    · exact absurd h1 (by decide)
    · exact absurd h1 (by decide)
    · exact absurd h1 (by decide)

theorem extract_feedback_rows_empty (w : World) (h : questionUrls w = []) :
    (extract_feedback w).rows = [] := by
  unfold extract_feedback
  rw [if_pos h]

/-- Every row any GUI run writes — whether the run completes or is
aborted mid-loop by a raising username lookup — comes from a successful
block extraction on a successfully navigated question page. -/
theorem mem_extract_feedback_rows (w : World) (r : Record)
    (hr : r ∈ (extract_feedback w).rows) :
    ∃ (p : Nat × String) (bs : List Block),
      navBlocks w p.2 = some bs ∧ r ∈ (extractRowsG p.1 1 bs).1 := by
  by_cases h : questionUrls w = []
  · rw [extract_feedback_rows_empty w h] at hr
    exact absurd hr (List.not_mem_nil r)
  · unfold extract_feedback at hr
    rw [if_neg h] at hr
    dsimp only at hr
    split at hr <;>
    · rcases mem_rows_foldl w (questionUrls w).length (enumFrom1 1 (questionUrls w)) _ r hr
        with h1 | ⟨p, _, bs, hnav, hbs⟩
      · exact absurd h1 (List.not_mem_nil r)
      · exact ⟨p, bs, hnav, hbs⟩

/-! ## Claim theorems -/

/-- C1 (amended): the claimed failure-tolerance policy holds for the GUI
Orchestrator but not for the standalone CLI script.  GUI: on a world
whose blocks all carry their hidden username input, if a discovered
question's page never satisfies the readiness marker within the timeout,
`extract_feedback` logs the failure and continues — the run completes,
the failed ordinal contributes no row, and the rows written are exactly
the concatenation, in discovery order, of the rows of every
successfully loaded question.  CLI: a readiness timeout makes the
`continue` skip the `goto` back to the report page, so the next
iteration re-queries the question links on the failed question's own
page, finds none, and the `qi >= len(cur_links)` guard breaks the loop:
the run writes rows only for the maximal prefix of questions that all
load, dropping every question after the first timeout. -/
theorem c1_gui_skips_cli_truncates (w : World) :
    (∀ (qi : Nat) (qurl : String), worldClean w = true → questionUrls w ≠ [] →
      (qi, qurl) ∈ enumFrom1 1 (questionUrls w) → navBlocks w qurl = none →
      (extract_feedback w).status = RunStatus.completed ∧
      failMsg qurl ∈ (extract_feedback w).events ∧
      (∀ r ∈ (extract_feedback w).rows, r.question ≠ qi) ∧
      (extract_feedback w).rows = catMap (qRows w) (enumFrom1 1 (questionUrls w))) ∧
    (cli_main w).rows =
      catMap (cliQRows w)
        (enumFrom1 1 (w.reportHrefs.takeWhile (fun h => (navBlocks w h).isSome))) := by
  refine ⟨?_, cli_main_rows w⟩
  intro qi qurl hw hne hmem hfail
  obtain ⟨hst, hrows, hevents, hvis, hfo⟩ := extract_feedback_spec w hw hne
  refine ⟨hst, ?_, ?_, hrows⟩
  · rw [hevents]
    have hin : failMsg qurl ∈ qEvts w (questionUrls w).length (qi, qurl) := by
      unfold qEvts
      rw [hfail]
      exact List.mem_cons_of_mem _ (List.mem_cons_self _ _)
    have h2 := mem_catMap_of (qEvts w (questionUrls w).length) hmem hin
    exact List.mem_append.mpr (Or.inl (List.mem_append.mpr (Or.inr h2)))
  · intro r hr
    rw [hrows] at hr
    obtain ⟨p, hp, hrp⟩ := exists_of_mem_catMap _ hr
    intro hq
    have hq1 : r.question = p.1 := question_of_mem_qRows w p r hrp
    have hsnd : p.2 = qurl := by
      have := enumFrom1_snd_unique 1 (questionUrls w) p (qi, qurl) hp hmem
        (by rw [← hq1, hq])
      simpa using this
    unfold qRows at hrp
    rw [hsnd, hfail] at hrp
    exact absurd hrp (List.not_mem_nil r)

/-- Counterexample to C1 as stated: in `wCliSkip` question 2's readiness
marker never appears while question 3's page loads successfully, yet the
CLI run writes rows for question 1 only — question 3's rows, which the
claim says are still written, are lost when the loop breaks on the
stranded tab. -/
theorem c1_counterexample :
    navBlocks wCliSkip "textbox_marking.php?q=2" = none ∧
    navBlocks wCliSkip "textbox_marking.php?q=3" = some [blockBob] ∧
    ((cli_main wCliSkip).rows.map (fun r => r.question)) = [1] := by decide

/-- Witness for C1 (amended): in `w1` the GUI skips timed-out question 2
and still completes; the CLI truncation equation instantiated at `w1`. -/
theorem c1_witness :
    ((extract_feedback w1).status = RunStatus.completed ∧
      failMsg (absolutize "textbox_marking.php?q=2") ∈ (extract_feedback w1).events) ∧
    (cli_main w1).rows =
      catMap (cliQRows w1)
        (enumFrom1 1 (w1.reportHrefs.takeWhile (fun h => (navBlocks w1 h).isSome))) := by
  have h := c1_gui_skips_cli_truncates w1
  have hg := h.1 2 (absolutize "textbox_marking.php?q=2") (by decide) (by decide)
    (by decide) (by decide)
  exact ⟨⟨hg.1, hg.2.1⟩, h.2⟩

/-- C4: the Mark Normalizer satisfies the six specified equations. -/
theorem c4_normalizer_equations :
    parse_mark_to_decimal "½" = "0.5" ∧
    parse_mark_to_decimal "2½" = "2.5" ∧
    parse_mark_to_decimal "3/2" = "1.5" ∧
    parse_mark_to_decimal "4" = "4" ∧
    parse_mark_to_decimal "" = "" ∧
    parse_mark_to_decimal "abc" = "abc" := by decide

/-- C5 (amended): the Mark Normalizer is total (it is a Lean function)
and fail-soft, but the fallback returns the *stripped* input, not the
original raw string: a `<digits>/<digits>` input with zero denominator,
and any input matching no recognized pattern, come back with leading and
trailing whitespace removed — identical to the raw input exactly when it
carries no surrounding whitespace. -/
theorem c5_failsoft_returns_stripped (m : String) :
    (∀ nds dds, fracMatch (pyStrip m).data = some (nds, dds) →
      digitsToNat dds = 0 → parse_mark_to_decimal m = pyStrip m) ∧
    ((pyStrip m).data.contains '½' = false →
      fracMatch (pyStrip m).data = none →
      plainNum (pyStrip m).data = false →
      parse_mark_to_decimal m = pyStrip m) := by
  by_cases hm : m = ""
  · subst hm
    constructor
    · intro nds dds hfrac
      rw [show fracMatch (pyStrip "").data = none from rfl] at hfrac
      cases hfrac
    · intro _ _ _
      rfl
  · constructor
    · intro nds dds hfrac hzero
      have hhalf : (pyStrip m).data.contains '½' = false :=
        no_half_of_fracMatch _ nds dds hfrac
      unfold parse_mark_to_decimal
      rw [if_neg hm]
      dsimp only
      rw [if_neg (by simpa using hhalf), hfrac]
      dsimp only
      rw [if_neg (not_not_intro hzero), ite_self]
    · intro hhalf hfrac hplain
      unfold parse_mark_to_decimal
      rw [if_neg hm]
      dsimp only
      rw [if_neg (by simpa using hhalf), hfrac]
      dsimp only
      rw [ite_self]

/-- Witness for C5 (amended) at the zero-denominator fraction and at an
unrecognized mark. -/
theorem c5_witness :
    parse_mark_to_decimal "1/0" = pyStrip "1/0" ∧
    parse_mark_to_decimal "abc" = pyStrip "abc" := by
  have h1 := (c5_failsoft_returns_stripped "1/0").1 ['1'] ['0'] (by decide) (by decide)
  have h2 := (c5_failsoft_returns_stripped "abc").2 (by decide) (by decide) (by decide)
  exact ⟨h1, h2⟩

/-- Counterexample to C5 as stated: on the whitespace-padded
zero-denominator input `" 1/0 "` the normalizer returns `"1/0"`, which
is not the original raw string. -/
theorem c5_counterexample :
    parse_mark_to_decimal " 1/0 " = "1/0" ∧ "1/0" ≠ " 1/0 " := by decide

/-- C8: a report page yielding zero question links terminates the run
immediately with the distinct "No questions found" outcome: no data row
is written, the output file is never opened, and no question page is
navigated to. -/
theorem c8_zero_questions_terminates (w : World) (h : questionUrls w = []) :
    (extract_feedback w).status = RunStatus.noQuestions ∧
    (extract_feedback w).rows = [] ∧
    (extract_feedback w).visited = [] ∧
    (extract_feedback w).fileOpened = false ∧
    "⚠️ No questions found.\n" ∈ (extract_feedback w).events := by
  unfold extract_feedback
  rw [if_pos h]
  refine ⟨rfl, rfl, rfl, rfl, ?_⟩
  simp

/-- Witness for C8 on a report page with no marking-page anchors. -/
theorem c8_witness :
    (extract_feedback w8).status = RunStatus.noQuestions ∧
    (extract_feedback w8).rows = [] ∧
    (extract_feedback w8).visited = [] := by
  have h := c8_zero_questions_terminates w8 (by decide)
  exact ⟨h.1, h.2.1, h.2.2.1⟩

/-- C10: when extraction writes at all, the output is opened in
truncating `"w"` mode before the header: the resulting file contents do
not depend on what the file held before, and equal exactly the header
row followed by this run's data rows — rows from an earlier run are
never preserved or appended to. -/
theorem c10_output_truncated (w : World) (prev1 prev2 : List (List String))
    (h : questionUrls w ≠ []) :
    run_output_file w prev1 = run_output_file w prev2 ∧
    run_output_file w prev1 =
      guiHeader :: (extract_feedback w).rows.map serializeRecord := by
  have ho : ∀ prev : List (List String), openOutput "w" prev = [] :=
    fun prev => if_pos rfl
  unfold run_output_file
  rw [if_neg h, if_neg h, ho prev1, ho prev2]
  exact ⟨rfl, rfl⟩

/-- Witness for C10: stale rows on disk do not survive a run. -/
theorem c10_witness :
    run_output_file w1 [["stale", "row"]] = run_output_file w1 [] ∧
    run_output_file w1 [["stale", "row"]] =
      guiHeader :: (extract_feedback w1).rows.map serializeRecord :=
  c10_output_truncated w1 [["stale", "row"]] [] (by decide)

/-- C2 (amended): every CSV written by the GUI extractor starts with the
header `question_number,student_id,student_label,mark,comment,student_answer`
and its data rows carry their six fields in that order; the standalone
CLI script instead writes `student_answer` in fourth position — before
`mark` and `comment` — in both its header and its data rows. -/
theorem c2_column_orders :
    (∀ (w : World) (rowsCsv : List (List String)), gui_csv w = some rowsCsv →
      rowsCsv.head? = some ["question_number", "student_id", "student_label",
        "mark", "comment", "student_answer"] ∧
      ∀ row ∈ rowsCsv.tail, ∃ rec, rec ∈ (extract_feedback w).rows ∧
        row = [toString rec.question, rec.studentId, rec.label,
          rec.mark, rec.comment, rec.answer]) ∧
    (∀ (w : World) (rowsCsv : List (List String)), (cli_main w).csv = some rowsCsv →
      rowsCsv.head? = some ["question_number", "student_id", "student_label",
        "student_answer", "mark", "comment"] ∧
      ∀ row ∈ rowsCsv.tail, ∃ rec, rec ∈ (cli_main w).rows ∧
        row = [toString rec.question, rec.studentId, rec.label,
          rec.answer, rec.mark, rec.comment]) := by
  constructor
  · intro w rowsCsv hcsv
    unfold gui_csv at hcsv
    by_cases h : questionUrls w = []
    · rw [if_pos h] at hcsv
      cases hcsv
    · rw [if_neg h] at hcsv
      injection hcsv with hcsv
      subst hcsv
      refine ⟨rfl, ?_⟩
      intro row hrow
      obtain ⟨rec, hrec, hser⟩ := List.mem_map.mp hrow
      exact ⟨rec, hrec, hser ▸ rfl⟩
  · intro w rowsCsv hcsv
    unfold cli_main at hcsv
    by_cases h : w.reportHrefs = []
    · rw [if_pos h] at hcsv
      cases hcsv
    · rw [if_neg h] at hcsv
      injection hcsv with hcsv
      subst hcsv
      refine ⟨rfl, ?_⟩
      intro row hrow
      obtain ⟨rec, hrec, hser⟩ := List.mem_map.mp hrow
      refine ⟨rec, ?_, hser ▸ rfl⟩
      unfold cli_main
      rw [if_neg h]
      exact hrec

/-- Witness for C2 (amended): both pipelines, on concrete runs. -/
theorem c2_witness :
    ((gui_csv wHalf).getD []).head? = some ["question_number", "student_id",
      "student_label", "mark", "comment", "student_answer"] ∧
    (((cli_main wCli).csv).getD []).head? = some ["question_number", "student_id",
      "student_label", "student_answer", "mark", "comment"] := by
  have h1 := (c2_column_orders.1 wHalf ((gui_csv wHalf).getD []) (by decide)).1
  have h2 := (c2_column_orders.2 wCli (((cli_main wCli).csv).getD []) (by decide)).1
  exact ⟨h1, h2⟩

/-- Counterexample to C2 as stated: the CLI run on `wCli` produces a CSV
whose header row is not the claimed one — `student_answer` sits in
fourth position, before `mark` and `comment`. -/
theorem c2_counterexample :
    (cli_main wCli).csv =
      some [["question_number", "student_id", "student_label",
              "student_answer", "mark", "comment"],
            ["1", "psxc3", "Carol Day", "Text", "½", "ok"]] ∧
    ["question_number", "student_id", "student_label",
      "student_answer", "mark", "comment"] ≠
      ["question_number", "student_id", "student_label",
        "mark", "comment", "student_answer"] := by decide

/-- C3 (amended): in the GUI extractor every mark written to the CSV is
the Mark Normalizer's output on some block's raw mark text, but the CLI
script writes the raw mark text with no normalization at all — and the
normalizer itself can return text still containing `½` (its fail-soft
fallback), so the glyph can reach mark fields of output CSVs. -/
theorem c3_mark_normalization_paths (w : World) :
    (∀ r ∈ (extract_feedback w).rows, ∃ b, b ∈ catMap (fun pr => pr.2) w.pages ∧
      r.mark = parse_mark_to_decimal ((b.mark.map pyStrip).getD "")) ∧
    (∀ r ∈ (cli_main w).rows, ∃ b, b ∈ catMap (fun pr => pr.2) w.pages ∧
      r.mark = (b.mark.map pyStrip).getD "") := by
  constructor
  · intro r hr
    obtain ⟨p, bs, hnav, hbs⟩ := mem_extract_feedback_rows w r hr
    obtain ⟨si, b, hb, heq⟩ := mem_extractRowsG p.1 1 bs r hbs
    obtain ⟨hbs', pr, hprm, hpr2⟩ := navBlocks_some w p.2 bs hnav
    refine ⟨b, mem_catMap_of _ hprm (hpr2 ▸ hb), ?_⟩
    exact (guiExtractBlock_some p.1 si b r heq).2
  · intro r hr
    rw [cli_main_rows w] at hr
    obtain ⟨p, hp, hrp⟩ := exists_of_mem_catMap _ hr
    unfold cliQRows at hrp
    rcases hn : navBlocks w p.2 with _ | bs
    · rw [hn] at hrp
      exact absurd hrp (List.not_mem_nil r)
    · rw [hn] at hrp
      obtain ⟨hbs, pr, hprm, hpr2⟩ := navBlocks_some w p.2 bs hn
      obtain ⟨q, hq, heq⟩ := List.mem_map.mp hrp
      refine ⟨q.2, mem_catMap_of _ hprm (hpr2 ▸ enumFrom1_mem_snd hq), ?_⟩
      rw [← heq]
      rfl

/-- Witness for C3 (amended): in `wHalf` the GUI writes the normalized
`"0.5"` for the raw `"½"` mark. -/
theorem c3_witness :
    ∃ b, b ∈ catMap (fun pr => pr.2) wHalf.pages ∧
      ({ question := 1, studentId := "psxc3", label := "Carol Day", mark := "0.5",
         comment := "ok", answer := "Text" } : Record).mark =
        parse_mark_to_decimal ((b.mark.map pyStrip).getD "") :=
  (c3_mark_normalization_paths wHalf).1
    { question := 1, studentId := "psxc3", label := "Carol Day", mark := "0.5",
      comment := "ok", answer := "Text" } (by decide)

/-- Counterexample to C3 as stated: the CLI run on `wCli` writes the raw
half glyph into the CSV mark column (fifth column of the CLI layout); it
never passed through the Mark Normalizer, whose output on that raw text
would have been `"0.5"`. -/
theorem c3_counterexample :
    ((cli_main wCli).rows.map (fun r => r.mark)) = ["½"] ∧
    (((cli_main wCli).csv).getD []).map (fun row => row.getD 4 "") = ["mark", "½"] ∧
    ("½".data.contains '½') = true ∧
    parse_mark_to_decimal "½" ≠ "½" := by decide

/-- C6 (amended): field optionality differs between the two pipelines.
CLI: every lookup sits in its own `try/except`, so each of the five
fields is individually optional — a missing hidden identifier *element*
and a missing `value` *attribute* both yield an empty student_id, a
missing answer, mark or comment element yields the empty string for just
that field, a missing header yields the synthesized label, and every
block yields exactly one record.  GUI: the same fallbacks hold for the
four guarded lookups (and for a username input whose `value` attribute
is absent, via `or ""`), but the username lookup itself is *not*
guarded: a block lacking the hidden identifier input yields no record at
all — `get_attribute` raises after its auto-wait and the exception
escapes the per-question try, aborting the rest of the run. -/
theorem c6_field_fallbacks (qi si : Nat) (b : Block) :
    ((b.username = none → (cliExtractBlock qi si b).studentId = "") ∧
     (b.username = some none → (cliExtractBlock qi si b).studentId = "") ∧
     (b.answer = none → (cliExtractBlock qi si b).answer = "") ∧
     (b.mark = none → (cliExtractBlock qi si b).mark = "") ∧
     (b.comment = none → (cliExtractBlock qi si b).comment = "") ∧
     (b.header = none → (cliExtractBlock qi si b).label = studentFallback si) ∧
     ∀ bs : List Block,
       ((enumFrom1 1 bs).map (fun q => cliExtractBlock qi q.1 q.2)).length = bs.length) ∧
    ((∀ attr, b.username = some attr →
        ∃ r, guiExtractBlock qi si b = some r ∧ r.studentId = attr.getD "" ∧
          (b.answer = none → r.answer = "") ∧
          (b.mark = none → r.mark = "") ∧
          (b.comment = none → r.comment = "") ∧
          (b.header = none → r.label = studentFallback si)) ∧
     (b.username = none → guiExtractBlock qi si b = none)) := by
  refine ⟨⟨?_, ?_, ?_, ?_, ?_, ?_, ?_⟩, ?_, ?_⟩
  · intro h
    simp [cliExtractBlock, h]
  · intro h
    simp [cliExtractBlock, h]
  · intro h
    simp [cliExtractBlock, h]
  · intro h
    simp [cliExtractBlock, h]
  · intro h
    simp [cliExtractBlock, h]
  · intro h
    simp [cliExtractBlock, h]
  · intro bs
    rw [List.length_map, enumFrom1_length]
  · intro attr h
    unfold guiExtractBlock
    rw [h]
    refine ⟨_, rfl, rfl, ?_, ?_, ?_, ?_⟩
    · intro ha
      show (b.answer.map pyStrip).getD "" = ""
      rw [ha]
      rfl
    · intro hm
      show parse_mark_to_decimal ((b.mark.map pyStrip).getD "") = ""
      rw [hm]
      rfl
    · intro hc
      show (b.comment.map pyStrip).getD "" = ""
      rw [hc]
      rfl
    · intro hh
      show (b.header.map pyStrip).getD (studentFallback si) = studentFallback si
      rw [hh]
      rfl
  · intro h
    unfold guiExtractBlock
    rw [h]

/-- Counterexample to C6 as stated: in the GUI a block lacking the
hidden identifier input does not yield an empty-string student_id — it
yields no record, and the run on `wAbort` (one question, one such block)
ends failed with no rows written, because the unguarded `get_attribute`
raises out of the per-question handler. -/
theorem c6_counterexample :
    guiExtractBlock 1 1
        ⟨some "Dana Eve", none, some "Words", some "1", some "hm"⟩ = none ∧
    (extract_feedback wAbort).status = RunStatus.failed ∧
    (extract_feedback wAbort).rows = [] := by decide

/-- Witness for C6 (amended): CLI fallbacks on an all-absent block and
on an attribute-absent username; GUI extraction succeeding with the
stored identifier when the input is present, and failing when it is
absent. -/
theorem c6_witness :
    (cliExtractBlock 1 1 ⟨none, none, none, none, none⟩).studentId = "" ∧
    (cliExtractBlock 1 1 ⟨none, some none, none, none, none⟩).studentId = "" ∧
    (cliExtractBlock 1 1 ⟨none, none, none, none, none⟩).answer = "" ∧
    (cliExtractBlock 1 1 ⟨none, none, none, none, none⟩).mark = "" ∧
    (cliExtractBlock 1 1 ⟨none, none, none, none, none⟩).comment = "" ∧
    (cliExtractBlock 1 1 ⟨none, none, none, none, none⟩).label = studentFallback 1 ∧
    ((enumFrom1 1 [(⟨none, none, none, none, none⟩ : Block)]).map
      (fun q => cliExtractBlock 1 q.1 q.2)).length = 1 ∧
    (∃ r, guiExtractBlock 1 1 ⟨none, some (some "psx"), none, none, none⟩ = some r ∧
      r.studentId = "psx") ∧
    guiExtractBlock 1 1 ⟨some "S", none, some "a", some "1", some "c"⟩ = none := by
  have h1 := c6_field_fallbacks 1 1 ⟨none, none, none, none, none⟩
  have h2 := c6_field_fallbacks 1 1 ⟨none, some none, none, none, none⟩
  have h3 := c6_field_fallbacks 1 1 ⟨none, some (some "psx"), none, none, none⟩
  have h4 := c6_field_fallbacks 1 1 ⟨some "S", none, some "a", some "1", some "c"⟩
  obtain ⟨r, hr, hsid, -, -, -, -⟩ := h3.2.1 (some "psx") rfl
  exact ⟨h1.1.1 rfl, h2.1.2.1 rfl, h1.1.2.2.1 rfl, h1.1.2.2.2.1 rfl,
    h1.1.2.2.2.2.1 rfl, h1.1.2.2.2.2.2.1 rfl,
    h1.1.2.2.2.2.2.2 [⟨none, none, none, none, none⟩],
    ⟨r, hr, hsid⟩, h4.2.2 rfl⟩

/-- C7: on the spec's end-to-end scenario (2 question links; question 1
has 2 blocks, the second missing its mark control; question 2 has 0
blocks) the run writes exactly 2 data rows, but `parse_summary_from_log`
reports `(questions, students, rows) = (2, 2, 4)`: its `^\s*✅ ` pattern
also counts the "Exam selected" and "Found 2 questions" banner lines, so
the displayed rows-written figure is 4, not the actual 2. -/
theorem c7_summary_overcounts_rows :
    parse_summary_from_log
        (choose_and_extract_log w7 "https://examsys.nottingham.ac.uk/paper.php?id=1"
          "https://examsys.nottingham.ac.uk/reports/textbox_select_q.php?paperID=1")
      = (2, 2, 4) ∧
    (extract_feedback w7).rows.length = 2 := by decide

/-! ## Model sanity checks against the Python behaviour -/

example : parse_mark_to_decimal "½" = "0.5" := by decide
example : parse_mark_to_decimal "2½" = "2.5" := by decide
example : parse_mark_to_decimal "3/2" = "1.5" := by decide
example : parse_mark_to_decimal "4" = "4" := by decide
example : parse_mark_to_decimal "" = "" := by decide
example : parse_mark_to_decimal "abc" = "abc" := by decide
example : parse_mark_to_decimal " 1/0 " = "1/0" := by decide
example : parse_mark_to_decimal "a½" = "a½" := by decide
example : parse_mark_to_decimal "1 ½" = "1.5" := by decide
example : parse_mark_to_decimal "4/2" = "2.0" := by decide
example : absolutize "../textbox_marking.php?id=3"
    = "https://examsys.nottingham.ac.uk/reports/textbox_marking.php?id=3" := by decide
example : absolutize "  /x " = "https://examsys.nottingham.ac.uk/x" := by decide
example : absolutize "textbox_marking.php?id=1"
    = "https://examsys.nottingham.ac.uk/reports/textbox_marking.php?id=1" := by decide
example : absolutize "" = "" := by decide

example : (extract_feedback w7).rows.length = 2 := by decide
example :
    parse_summary_from_log
      (choose_and_extract_log w7 "https://examsys.nottingham.ac.uk/paper.php?id=1"
        "https://examsys.nottingham.ac.uk/reports/textbox_select_q.php?paperID=1")
      = (2, 2, 4) := by decide
example : (extract_feedback w1).status = RunStatus.completed := by decide
example : (extract_feedback w1).rows.map (fun r => r.question) = [1, 3] := by decide
example : failMsg (absolutize "textbox_marking.php?q=2") ∈ (extract_feedback w1).events := by
  decide
example : (cli_main wCli).csv
    = some [cliHeader, ["1", "psxc3", "Carol Day", "Text", "½", "ok"]] := by decide
example : (extract_feedback wHalf).rows.map (fun r => r.mark) = ["0.5"] := by decide
example : (extract_feedback w8).status = RunStatus.noQuestions := by decide
